import Mathlib

/-!
Verification development for the databend runtime coordination layer and
its typed value model.

Part 1 embeds `common/datavalues/src/data_value.rs` and
`common/datavalues/src/ops/data_array_arithmetic.rs`.

Part 2 models the flight dispatcher (stage registration, stream registry,
stage executor with scatter partitioning) from the specification: the
dispatcher implementation itself ships only its test file
(`fusequery/query/src/api/rpc/flight_dispatcher_test.rs`), so the
operational definitions are written from the spec's words and the
behaviour pinned by that test.
-/

set_option maxHeartbeats 1000000

/-- Time units of a timestamp type, from arrow's `TimeUnit`. -/
inductive TimeUnit where
  | second
  | millisecond
  | microsecond
  | nanosecond
deriving DecidableEq, Repr

/-- Interval units, from arrow's `IntervalUnit`. -/
inductive IntervalUnit where
  | yearMonth
  | dayTime
deriving DecidableEq, Repr

mutual
/-- The `DataType` enum used by `common/datavalues` (arrow data types). -/
inductive DataType where
  | null
  | boolean
  | int8
  | int16
  | int32
  | int64
  | uint8
  | uint16
  | uint32
  | uint64
  | float32
  | float64
  | utf8
  | binary
  | date32
  | date64
  | timestamp (unit : TimeUnit) (tz : Option String)
  | interval (unit : IntervalUnit)
  | list (f : DataField)
  | struct (fields : List DataField)

/-- A named, typed, nullable field (`DataField::new(name, data_type, nullable)`). -/
inductive DataField where
  | mk (name : String) (dataType : DataType) (nullable : Bool)
end

/-- Field accessor corresponding to `DataField::data_type()`. -/
def DataField.data_type : DataField → DataType
  | .mk _ t _ => t

/-- The `DataValue` enum of `common/datavalues/src/data_value.rs`.
Signed payloads are embedded as `Int`, unsigned as `Nat`; the `f32`/`f64`
payloads are abstracted as their bit patterns (`Nat`) since no verified
property inspects a floating-point value. -/
inductive DataValue where
  | null
  | boolean (v : Option Bool)
  | int8 (v : Option Int)
  | int16 (v : Option Int)
  | int32 (v : Option Int)
  | int64 (v : Option Int)
  | uint8 (v : Option Nat)
  | uint16 (v : Option Nat)
  | uint32 (v : Option Nat)
  | uint64 (v : Option Nat)
  | float32 (v : Option Nat)
  | float64 (v : Option Nat)
  | binary (v : Option (List Nat))
  | utf8 (v : Option String)
  | date32 (v : Option Int)
  | date64 (v : Option Int)
  | timestampSecond (v : Option Int)
  | timestampMillisecond (v : Option Int)
  | timestampMicrosecond (v : Option Int)
  | timestampNanosecond (v : Option Int)
  | intervalYearMonth (v : Option Int)
  | intervalDayTime (v : Option Int)
  | list (v : Option (List DataValue)) (ty : DataType)
  | struct (v : List DataValue)

/-- `DataValue::is_null`, embedded verbatim from the `matches!` pattern list
in `data_value.rs` (lines 68-91). -/
def DataValue.is_null : DataValue → Bool
  | .boolean none => true
  | .int8 none => true
  | .int16 none => true
  | .int32 none => true
  | .int64 none => true
  | .uint8 none => true
  | .uint16 none => true
  | .uint32 none => true
  | .uint64 none => true
  | .float32 none => true
  | .float64 none => true
  | .binary none => true
  | .utf8 none => true
  | .date32 none => true
  | .date64 none => true
  | .timestampMillisecond none => true
  | .timestampMicrosecond none => true
  | .timestampNanosecond none => true
  | .list none _ => true
  | _ => false

mutual
/-- `DataValue::data_type` from `data_value.rs` (lines 93-132). -/
def DataValue.data_type : DataValue → DataType
  | .null => .null
  | .boolean _ => .boolean
  | .int8 _ => .int8
  | .int16 _ => .int16
  | .int32 _ => .int32
  | .int64 _ => .int64
  | .uint8 _ => .uint8
  | .uint16 _ => .uint16
  | .uint32 _ => .uint32
  | .uint64 _ => .uint64
  | .float32 _ => .float32
  | .float64 _ => .float64
  | .utf8 _ => .utf8
  | .date32 _ => .date32
  | .date64 _ => .date64
  | .timestampSecond _ => .timestamp .second none
  | .timestampMillisecond _ => .timestamp .millisecond none
  | .timestampMicrosecond _ => .timestamp .microsecond none
  | .timestampNanosecond _ => .timestamp .nanosecond none
  | .intervalYearMonth _ => .interval .yearMonth
  | .intervalDayTime _ => .interval .dayTime
  | .list _ ty => .list (.mk "item" ty true)
  | .struct v => .struct (DataValue.structFields 0 v)
  | .binary _ => .binary

/-- The `enumerate`-and-map loop building `item_{i}` fields inside
`DataValue::data_type` for the `Struct` arm. -/
def DataValue.structFields (i : Nat) : List DataValue → List DataField
  | [] => []
  | x :: xs => .mk ("item_" ++ toString i) x.data_type true :: DataValue.structFields (i + 1) xs
end

/-- The `ErrorCode` values of `common_exception`, as observed through their
`code()` and `message()` accessors (the only accessors the test suite uses). -/
structure ErrorCode where
  code : Nat
  message : String
deriving DecidableEq, Repr

/-- `impl TryFrom<&DataType> for DataValue` from `data_value.rs`
(lines 155-183). -/
def DataValue.try_from : DataType → Except ErrorCode DataValue
  | .null => .ok .null
  | .boolean => .ok (.boolean none)
  | .int8 => .ok (.int8 none)
  | .int16 => .ok (.int16 none)
  | .int32 => .ok (.int32 none)
  | .int64 => .ok (.int64 none)
  | .uint8 => .ok (.uint8 none)
  | .uint16 => .ok (.uint16 none)
  | .uint32 => .ok (.uint32 none)
  | .uint64 => .ok (.uint64 none)
  | .float32 => .ok (.float32 none)
  | .float64 => .ok (.float64 none)
  | .utf8 => .ok (.utf8 none)
  | .date32 => .ok (.uint32 none)
  | .date64 => .ok (.uint64 none)
  | .timestamp _ _ => .ok (.uint64 none)
  | .interval .yearMonth => .ok (.uint32 none)
  | .interval .dayTime => .ok (.uint64 none)
  | .list f => .ok (.list none f.data_type)
  | .struct _ => .ok (.struct [])
  | .binary => .ok (.binary none)

/-- The arithmetic operators of `DataValueArithmeticOperator`. -/
inductive DataValueArithmeticOperator where
  | plus
  | minus
  | mul
  | div
  | modulo
deriving DecidableEq, Repr

/-- Error raised by the numeric coercion path (`ErrorCode::BadDataValueType`);
the formatted message payload is abstracted since no verified property
inspects it. -/
inductive CoercionError where
  | badDataValueType
deriving DecidableEq, Repr

/-- Modelled from the spec: `is_numeric` on `DataType` is referenced by
`numerical_arithmetic_coercion` but defined outside the included sources;
it holds exactly on the ten primitive numeric types. -/
def is_numeric : DataType → Bool
  | .int8 | .int16 | .int32 | .int64 => true
  | .uint8 | .uint16 | .uint32 | .uint64 => true
  | .float32 | .float64 => true
  | _ => false

/-- Modelled from the spec: `is_signed_numeric`, referenced by
`numerical_arithmetic_coercion` but defined outside the included sources;
it holds on signed integers and floats. -/
def is_signed_numeric : DataType → Bool
  | .int8 | .int16 | .int32 | .int64 => true
  | .float32 | .float64 => true
  | _ => false

/-- Modelled from the spec: `is_floating`, referenced by
`numerical_arithmetic_coercion` but defined outside the included sources. -/
def is_floating : DataType → Bool
  | .float32 | .float64 => true
  | _ => false

/-- Modelled from the spec: `numeric_byte_size`, referenced by
`numerical_arithmetic_coercion` but defined outside the included sources;
byte width of a primitive numeric type, error otherwise. -/
def numeric_byte_size : DataType → Except CoercionError Nat
  | .int8 | .uint8 => .ok 1
  | .int16 | .uint16 => .ok 2
  | .int32 | .uint32 | .float32 => .ok 4
  | .int64 | .uint64 | .float64 => .ok 8
  | _ => .error .badDataValueType

/-- Modelled from the spec: `next_size`, referenced by
`numerical_arithmetic_coercion` but defined outside the included sources;
widens a byte size below 8 to the next power of two. -/
def next_size (size : Nat) : Nat :=
  if size < 8 then size * 2 else size

/-- Modelled from the spec: `construct_numeric_type`, referenced by
`numerical_arithmetic_coercion` but defined outside the included sources;
picks the numeric type with the given signedness, floatness and byte size. -/
def construct_numeric_type (is_signed is_floating : Bool) (byte_size : Nat) :
    Except CoercionError DataType :=
  match is_signed, is_floating, byte_size with
  | false, false, 1 => .ok .uint8
  | false, false, 2 => .ok .uint16
  | false, false, 4 => .ok .uint32
  | false, false, 8 => .ok .uint64
  | true, false, 1 => .ok .int8
  | true, false, 2 => .ok .int16
  | true, false, 4 => .ok .int32
  | true, false, 8 => .ok .int64
  | _, true, 4 => .ok .float32
  | _, true, 8 => .ok .float64
  | false, false, 16 => .ok .uint64
  | true, false, 16 => .ok .int64
  | _, true, 16 => .ok .float64
  | _, _, _ => .error .badDataValueType

/-- `numerical_arithmetic_coercion` from
`common/datavalues/src/ops/data_array_arithmetic.rs` (lines 30-58). -/
def numerical_arithmetic_coercion (op : DataValueArithmeticOperator)
    (lhs_type rhs_type : DataType) : Except CoercionError DataType :=
  if !is_numeric lhs_type || !is_numeric rhs_type then
    .error .badDataValueType
  else do
    let has_signed := is_signed_numeric lhs_type || is_signed_numeric rhs_type
    let has_float := is_floating lhs_type || is_floating rhs_type
    let lsize ← numeric_byte_size lhs_type
    let rsize ← numeric_byte_size rhs_type
    let max_size := max lsize rsize
    match op with
    | .plus | .mul | .modulo =>
        construct_numeric_type has_signed has_float (next_size max_size)
    | .minus => construct_numeric_type true has_float (next_size max_size)
    | .div => .ok .float64

theorem try_from_isOk (dt : DataType) : (DataValue.try_from dt).isOk = true := by
  cases dt
  case interval u => cases u <;> rfl
  all_goals rfl

theorem coercion_err_of_not_numeric (op : DataValueArithmeticOperator)
    (lhs rhs : DataType) (h : is_numeric lhs = false ∨ is_numeric rhs = false) :
    numerical_arithmetic_coercion op lhs rhs = .error .badDataValueType := by
  unfold numerical_arithmetic_coercion
  rcases h with h | h <;> simp [h]

theorem coercion_ok_of_numeric (op : DataValueArithmeticOperator)
    (lhs rhs : DataType) (hl : is_numeric lhs = true) (hr : is_numeric rhs = true) :
    (numerical_arithmetic_coercion op lhs rhs).isOk = true := by
  cases lhs <;> cases rhs <;>
    first
    | (simp [is_numeric] at hl; done)
    | (simp [is_numeric] at hr; done)
    | (cases op <;> rfl)

theorem coercion_div_float64 (lhs rhs : DataType)
    (hl : is_numeric lhs = true) (hr : is_numeric rhs = true) :
    numerical_arithmetic_coercion .div lhs rhs = .ok .float64 := by
  cases lhs <;> cases rhs <;>
    first
    | (simp [is_numeric] at hl; done)
    | (simp [is_numeric] at hr; done)
    | rfl

theorem coercion_minus_signed (lhs rhs : DataType)
    (hl : is_numeric lhs = true) (hr : is_numeric rhs = true) :
    ∃ t, numerical_arithmetic_coercion .minus lhs rhs = .ok t
      ∧ is_signed_numeric t = true := by
  cases lhs <;> cases rhs <;>
    first
    | (simp [is_numeric] at hl; done)
    | (simp [is_numeric] at hr; done)
    | exact ⟨_, rfl, rfl⟩

/-- C8: `DataValue::is_null` does not recognise every null-like value: it
returns false for `Null` itself, for `TimestampSecond(None)`,
`IntervalYearMonth(None)`, `IntervalDayTime(None)` and `Struct(vec![])`,
while returning true for the `None` case of every other scalar variant and
for `List(None, _)`. -/
theorem is_null_variant_coverage :
    DataValue.is_null .null = false
    ∧ DataValue.is_null (.timestampSecond none) = false
    ∧ DataValue.is_null (.intervalYearMonth none) = false
    ∧ DataValue.is_null (.intervalDayTime none) = false
    ∧ DataValue.is_null (.struct []) = false
    ∧ DataValue.is_null (.boolean none) = true
    ∧ DataValue.is_null (.int8 none) = true
    ∧ DataValue.is_null (.int16 none) = true
    ∧ DataValue.is_null (.int32 none) = true
    ∧ DataValue.is_null (.int64 none) = true
    ∧ DataValue.is_null (.uint8 none) = true
    ∧ DataValue.is_null (.uint16 none) = true
    ∧ DataValue.is_null (.uint32 none) = true
    ∧ DataValue.is_null (.uint64 none) = true
    ∧ DataValue.is_null (.float32 none) = true
    ∧ DataValue.is_null (.float64 none) = true
    ∧ DataValue.is_null (.binary none) = true
    ∧ DataValue.is_null (.utf8 none) = true
    ∧ DataValue.is_null (.date32 none) = true
    ∧ DataValue.is_null (.date64 none) = true
    ∧ DataValue.is_null (.timestampMillisecond none) = true
    ∧ DataValue.is_null (.timestampMicrosecond none) = true
    ∧ DataValue.is_null (.timestampNanosecond none) = true
    ∧ ∀ ty, DataValue.is_null (.list none ty) = true :=
  ⟨rfl, rfl, rfl, rfl, rfl, rfl, rfl, rfl, rfl, rfl, rfl, rfl, rfl, rfl, rfl,
   rfl, rfl, rfl, rfl, rfl, rfl, rfl, rfl, fun _ => rfl⟩

/-- C9: `TryFrom<&DataType> for DataValue` is total (it returns `Ok` for every
`DataType`), but it is not a section of `DataValue::data_type`: `Date32`,
`Date64`, `Timestamp` and `Interval` inputs map to unsigned-integer variants
(for example `Date32` maps to `DataValue::UInt32(None)`), so `data_type`
applied to the result does not return the original type for those inputs. -/
theorem try_from_total_not_section :
    (∀ dt : DataType, (DataValue.try_from dt).isOk = true)
    ∧ DataValue.try_from .date32 = .ok (.uint32 none)
    ∧ DataValue.try_from .date64 = .ok (.uint64 none)
    ∧ (∀ u tz, DataValue.try_from (.timestamp u tz) = .ok (.uint64 none))
    ∧ DataValue.try_from (.interval .yearMonth) = .ok (.uint32 none)
    ∧ DataValue.try_from (.interval .dayTime) = .ok (.uint64 none)
    ∧ (DataValue.try_from .date32).map DataValue.data_type ≠ .ok .date32
    ∧ (DataValue.try_from .date64).map DataValue.data_type ≠ .ok .date64
    ∧ (∀ u tz, (DataValue.try_from (.timestamp u tz)).map DataValue.data_type
        ≠ .ok (.timestamp u tz))
    ∧ ∀ u, (DataValue.try_from (.interval u)).map DataValue.data_type
        ≠ .ok (.interval u) := by
  refine ⟨try_from_isOk, rfl, rfl, fun u tz => rfl, rfl, rfl, ?_, ?_, ?_, ?_⟩
  · intro h
    simp [DataValue.try_from, DataValue.data_type, Except.map] at h
  · intro h
    simp [DataValue.try_from, DataValue.data_type, Except.map] at h
  · intro u tz h
    simp [DataValue.try_from, DataValue.data_type, Except.map] at h
  · intro u h
    cases u <;> simp [DataValue.try_from, DataValue.data_type, Except.map] at h

/-- C10: `numerical_arithmetic_coercion` returns an error exactly when one of
the operand types is non-numeric; for two numeric operands, `Div` always
coerces to `Float64`, and `Minus` always coerces to a signed numeric type
even when both operands are unsigned. -/
theorem numerical_arithmetic_coercion_spec (op : DataValueArithmeticOperator)
    (lhs rhs : DataType) :
    ((numerical_arithmetic_coercion op lhs rhs).isOk = true
       ↔ (is_numeric lhs = true ∧ is_numeric rhs = true))
    ∧ (is_numeric lhs = true → is_numeric rhs = true →
        numerical_arithmetic_coercion .div lhs rhs = .ok .float64)
    ∧ (is_numeric lhs = true → is_numeric rhs = true →
        ∃ t, numerical_arithmetic_coercion .minus lhs rhs = .ok t
          ∧ is_signed_numeric t = true) := by
  refine ⟨⟨fun h => ?_, fun ⟨hl, hr⟩ => coercion_ok_of_numeric op lhs rhs hl hr⟩,
    fun hl hr => coercion_div_float64 lhs rhs hl hr,
    fun hl hr => coercion_minus_signed lhs rhs hl hr⟩
  cases hl : is_numeric lhs with
  | false =>
      rw [coercion_err_of_not_numeric op lhs rhs (Or.inl hl)] at h
      exact absurd h (by simp [Except.isOk, Except.toBool])
  | true =>
      cases hr : is_numeric rhs with
      | false =>
          rw [coercion_err_of_not_numeric op lhs rhs (Or.inr hr)] at h
          exact absurd h (by simp [Except.isOk, Except.toBool])
      | true => exact ⟨rfl, rfl⟩

theorem numerical_arithmetic_coercion_spec_witness :
    numerical_arithmetic_coercion .div .uint8 .uint16 = .ok .float64
    ∧ ∃ t, numerical_arithmetic_coercion .minus .uint8 .uint16 = .ok t
        ∧ is_signed_numeric t = true :=
  ⟨(numerical_arithmetic_coercion_spec .div .uint8 .uint16).2.1 rfl rfl,
   (numerical_arithmetic_coercion_spec .minus .uint8 .uint16).2.2 rfl rfl⟩

/-- Modelled from the spec: the structured stream key
`StreamKey = (query_id, stage_id, stream_id)`; the flight dispatcher itself
is not among the included sources, only its test file is. -/
structure StreamKey where
  query_id : String
  stage_id : String
  stream_id : String
deriving DecidableEq, Repr

/-- Modelled from the spec: the canonical rendering
`"query_id/stage_id/stream_id"` used at the RPC boundary. -/
def StreamKey.render (k : StreamKey) : String :=
  k.query_id ++ "/" ++ k.stage_id ++ "/" ++ k.stream_id

/-- Modelled from the spec: `PrepareStageInfo` restricted to the fields the
registry behaviour depends on; the plan fragment and scatter expression are
opaque to registration and are modelled separately with the stage executor. -/
structure PrepareStageInfo where
  query_id : String
  stage_id : String
  destinations : List String
deriving DecidableEq, Repr

/-- Modelled from the spec: the `NotFoundError` returned by GetStream, with
the numeric code 28 and exact message pinned by
`flight_dispatcher_test.rs` (lines 35-36). -/
def notFoundStreamError (stream_key : String) : ErrorCode :=
  ⟨28, "Stream " ++ stream_key ++ " is not found"⟩

/-- Modelled from the spec: the `ValidationError` cases surfaced
synchronously by PrepareQueryStage. -/
inductive ValidationError where
  | duplicateStage (query_id stage_id : String)
  | emptyDestinations
deriving DecidableEq, Repr

/-- Modelled from the spec: the dispatcher-owned state, i.e. the set of
registered stage keys and the registry of not-yet-claimed stream keys
(consumer ends carry no registry-relevant data and are identified by their
keys). -/
structure DispatcherState where
  stages : List (String × String)
  registry : List StreamKey
deriving DecidableEq, Repr

/-- The dispatcher's state before any request. -/
def DispatcherState.init : DispatcherState := ⟨[], []⟩

/-- Stream keys created for a stage's ordered destination list. -/
def stageStreamKeys (info : PrepareStageInfo) : List StreamKey :=
  info.destinations.map fun d => ⟨info.query_id, info.stage_id, d⟩

/-- Map-style insertion into the registry key set (the registry is a
mapping, so re-inserting a present key leaves one entry). -/
def insertKey (l : List StreamKey) (k : StreamKey) : List StreamKey :=
  if k ∈ l then l else l ++ [k]

/-- Modelled from the spec: `prepare_query_stage(info)` fails with
`ValidationError` if `(query_id, stage_id)` is already registered or the
destination list is empty; otherwise it records the stage and inserts one
registry entry per destination. The spawned stage executor is modelled
separately (`run_stage`); registration returns without running it. -/
def prepare_query_stage (s : DispatcherState) (info : PrepareStageInfo) :
    DispatcherState × Except ValidationError Unit :=
  if (info.query_id, info.stage_id) ∈ s.stages then
    (s, .error (.duplicateStage info.query_id info.stage_id))
  else if info.destinations = [] then
    (s, .error .emptyDestinations)
  else
    ({ stages := s.stages ++ [(info.query_id, info.stage_id)],
       registry := (stageStreamKeys info).foldl insertKey s.registry },
     .ok ())

/-- Modelled from the spec: `get_stream(stream_key)` removes and returns the
matching consumer end, or fails with `NotFoundError` carrying the exact
templated message and code 28. -/
def get_stream (s : DispatcherState) (k : StreamKey) :
    DispatcherState × Except ErrorCode StreamKey :=
  if k ∈ s.registry then
    ({ s with registry := s.registry.erase k }, .ok k)
  else
    (s, .error (notFoundStreamError k.render))

/-- Modelled from the spec: the dispatcher's closed set of request variants. -/
inductive Request where
  | prepareQueryStage (info : PrepareStageInfo)
  | getStream (k : StreamKey)
deriving DecidableEq, Repr

/-- Dispatcher state paired with audit lists: `declared` accumulates the
stream keys of every successfully registered stage and `claimed` the keys
handed over by successful `get_stream` calls, in order. -/
structure Trace where
  state : DispatcherState
  declared : List StreamKey
  claimed : List StreamKey
deriving DecidableEq, Repr

/-- The empty trace. -/
def Trace.init : Trace := ⟨DispatcherState.init, [], []⟩

/-- Process one request sequentially (the dispatcher is a single sequential
authority, so a run is a fold over the request list). -/
def traceStep (t : Trace) : Request → Trace
  | .prepareQueryStage info =>
      match prepare_query_stage t.state info with
      | (s', .ok _) => ⟨s', t.declared ++ stageStreamKeys info, t.claimed⟩
      | (s', .error _) => ⟨s', t.declared, t.claimed⟩
  | .getStream k =>
      match get_stream t.state k with
      | (s', .ok _) => ⟨s', t.declared, t.claimed ++ [k]⟩
      | (s', .error _) => ⟨s', t.declared, t.claimed⟩

/-- Run a request sequence against the initial dispatcher state. -/
def runTrace (reqs : List Request) : Trace := reqs.foldl traceStep Trace.init

theorem mem_insertKey {l : List StreamKey} {a k : StreamKey} :
    k ∈ insertKey l a ↔ (k ∈ l ∨ k = a) := by
  unfold insertKey
  by_cases h : a ∈ l
  · simp only [if_pos h]
    exact ⟨Or.inl, fun h' => h'.elim id fun e => e ▸ h⟩
  · simp [if_neg h]

theorem nodup_insertKey {l : List StreamKey} (hl : l.Nodup) (a : StreamKey) :
    (insertKey l a).Nodup := by
  unfold insertKey
  by_cases h : a ∈ l
  · simpa [if_pos h] using hl
  · rw [if_neg h, List.nodup_append]
    exact ⟨hl, List.nodup_singleton a, by simpa [List.disjoint_singleton] using h⟩

theorem mem_foldl_insertKey (K l : List StreamKey) (k : StreamKey) :
    k ∈ K.foldl insertKey l ↔ (k ∈ l ∨ k ∈ K) := by
  induction K generalizing l with
  | nil => simp
  | cons a K ih =>
      simp only [List.foldl_cons, ih, mem_insertKey, List.mem_cons]
      tauto

theorem nodup_foldl_insertKey (K l : List StreamKey) (hl : l.Nodup) :
    (K.foldl insertKey l).Nodup := by
  induction K generalizing l with
  | nil => exact hl
  | cons a K ih => exact ih _ (nodup_insertKey hl a)

theorem foldl_insertKey_of_fresh (K l : List StreamKey) (hK : K.Nodup)
    (hfresh : ∀ k ∈ K, k ∉ l) : K.foldl insertKey l = l ++ K := by
  induction K generalizing l with
  | nil => simp
  | cons a K ih =>
      have ha : a ∉ l := hfresh a (by simp)
      have hK' : K.Nodup := (List.nodup_cons.mp hK).2
      have haK : a ∉ K := (List.nodup_cons.mp hK).1
      have hfresh' : ∀ k ∈ K, k ∉ l ++ [a] := by
        intro k hk
        simp only [List.mem_append, List.mem_singleton]
        rintro (hmem | rfl)
        · exact hfresh k (by simp [hk]) hmem
        · exact haK hk
      calc (a :: K).foldl insertKey l = K.foldl insertKey (l ++ [a]) := by
            simp [insertKey, ha]
        _ = (l ++ [a]) ++ K := ih (l ++ [a]) hK' hfresh'
        _ = l ++ a :: K := by simp

theorem mem_stageStreamKeys {info : PrepareStageInfo} {k : StreamKey} :
    k ∈ stageStreamKeys info
      ↔ (k.query_id = info.query_id ∧ k.stage_id = info.stage_id
           ∧ k.stream_id ∈ info.destinations) := by
  cases k with
  | mk q s d =>
      simp only [stageStreamKeys, List.mem_map]
      constructor
      · rintro ⟨d', hd', he⟩
        cases he
        exact ⟨rfl, rfl, hd'⟩
      · rintro ⟨rfl, rfl, hd⟩
        exact ⟨d, hd, rfl⟩

theorem nodup_stageStreamKeys {info : PrepareStageInfo}
    (h : info.destinations.Nodup) : (stageStreamKeys info).Nodup :=
  h.map fun a b hab => by
    injection hab

/-- Invariant tying a reachable dispatcher state to the audit lists of its
trace: the registry holds exactly the declared-but-unclaimed keys. -/
structure TraceInv (t : Trace) : Prop where
  registry_nodup : t.state.registry.Nodup
  claimed_nodup : t.claimed.Nodup
  declared_stage : ∀ k ∈ t.declared, (k.query_id, k.stage_id) ∈ t.state.stages
  claimed_declared : ∀ k ∈ t.claimed, k ∈ t.declared
  registry_iff : ∀ k, k ∈ t.state.registry ↔ (k ∈ t.declared ∧ k ∉ t.claimed)

theorem traceStep_inv {t : Trace} (h : TraceInv t) (r : Request) :
    TraceInv (traceStep t r) := by
  cases r with
  | prepareQueryStage info =>
      by_cases h1 : (info.query_id, info.stage_id) ∈ t.state.stages
      · simpa [traceStep, prepare_query_stage, h1] using h
      · by_cases h2 : info.destinations = []
        · simpa [traceStep, prepare_query_stage, h1, h2] using h
        · have hstep : traceStep t (.prepareQueryStage info)
              = ⟨⟨t.state.stages ++ [(info.query_id, info.stage_id)],
                  (stageStreamKeys info).foldl insertKey t.state.registry⟩,
                 t.declared ++ stageStreamKeys info, t.claimed⟩ := by
            simp [traceStep, prepare_query_stage, h1, h2]
          have hKd : ∀ k ∈ stageStreamKeys info, k ∉ t.declared := by
            intro k hk hkd
            rcases mem_stageStreamKeys.mp hk with ⟨hq, hs, _⟩
            exact h1 (hq ▸ hs ▸ h.declared_stage k hkd)
          rw [hstep]
          constructor
          · exact nodup_foldl_insertKey _ _ h.registry_nodup
          · exact h.claimed_nodup
          · intro k hk
            rcases List.mem_append.mp hk with hk | hk
            · exact List.mem_append.mpr (Or.inl (h.declared_stage k hk))
            · rcases mem_stageStreamKeys.mp hk with ⟨hq, hs, _⟩
              exact List.mem_append.mpr (Or.inr (by simp [hq, hs]))
          · intro k hk
            exact List.mem_append.mpr (Or.inl (h.claimed_declared k hk))
          · intro k
            rw [mem_foldl_insertKey, List.mem_append]
            by_cases hkK : k ∈ stageStreamKeys info
            · have hkc : k ∉ t.claimed := fun hc => hKd k hkK (h.claimed_declared k hc)
              simp [hkK, hkc]
            · simp only [hkK, or_false]
              rw [h.registry_iff k]
  | getStream key =>
      by_cases hk : key ∈ t.state.registry
      · have hstep : traceStep t (.getStream key)
            = ⟨⟨t.state.stages, t.state.registry.erase key⟩,
               t.declared, t.claimed ++ [key]⟩ := by
          simp [traceStep, get_stream, hk]
        have hkd : key ∈ t.declared := ((h.registry_iff key).mp hk).1
        have hkc : key ∉ t.claimed := ((h.registry_iff key).mp hk).2
        rw [hstep]
        constructor
        · exact h.registry_nodup.erase key
        · rw [List.nodup_append]
          exact ⟨h.claimed_nodup, List.nodup_singleton key,
                 by simpa [List.disjoint_singleton] using hkc⟩
        · exact h.declared_stage
        · intro k hkm
          rcases List.mem_append.mp hkm with hkm | hkm
          · exact h.claimed_declared k hkm
          · rw [List.mem_singleton.mp hkm]
            exact hkd
        · intro k
          by_cases hke : k = key
          · subst hke
            simp only [h.registry_nodup.not_mem_erase, false_iff]
            rintro ⟨-, hnc⟩
            exact hnc (by simp)
          · rw [List.mem_erase_of_ne hke, h.registry_iff k]
            simp [hke]
      · simpa [traceStep, get_stream, hk] using h

theorem runTrace_inv_aux (reqs : List Request) (t : Trace) (h : TraceInv t) :
    TraceInv (reqs.foldl traceStep t) := by
  induction reqs generalizing t with
  | nil => exact h
  | cons r reqs ih => exact ih _ (traceStep_inv h r)

theorem runTrace_inv (reqs : List Request) : TraceInv (runTrace reqs) :=
  runTrace_inv_aux reqs Trace.init
    (by constructor <;> simp [Trace.init, DispatcherState.init])

theorem traceStep_claimed_sub (t : Trace) (r : Request) :
    ∀ k ∈ t.claimed, k ∈ (traceStep t r).claimed := by
  intro k hk
  cases r with
  | prepareQueryStage info =>
      simp only [traceStep]
      rcases hpr : prepare_query_stage t.state info with ⟨s', res⟩
      cases res <;> simp [hk]
  | getStream key =>
      simp only [traceStep]
      rcases hpr : get_stream t.state key with ⟨s', res⟩
      cases res <;> simp [hk]

theorem claimed_mono (more : List Request) (t : Trace) (k : StreamKey)
    (hk : k ∈ t.claimed) : k ∈ (more.foldl traceStep t).claimed := by
  induction more generalizing t with
  | nil => exact hk
  | cons r more ih => exact ih _ (traceStep_claimed_sub t r k hk)

/-- C7: in every state reachable by a sequence of prepare and get requests,
a stream key is present in the registry if and only if some successful
registration declared it and no successful get_stream has claimed it — the
registry is exactly the set of declared, unclaimed streams. -/
theorem registry_iff_declared_unclaimed (reqs : List Request) (k : StreamKey) :
    k ∈ (runTrace reqs).state.registry
      ↔ (k ∈ (runTrace reqs).declared ∧ k ∉ (runTrace reqs).claimed) :=
  (runTrace_inv reqs).registry_iff k

/-- C3: whenever the requested key has no registry entry, get_stream fails
with the NotFoundError whose message is exactly
`"Stream {stream_key} is not found"` and whose numeric code is the fixed
constant 28, identically for every such failure. -/
theorem get_stream_not_found (s : DispatcherState) (k : StreamKey)
    (h : k ∉ s.registry) :
    get_stream s k
      = (s, .error { code := 28,
                     message := "Stream " ++ k.render ++ " is not found" }) := by
  simp [get_stream, h, notFoundStreamError]

theorem get_stream_not_found_witness :
    get_stream DispatcherState.init ⟨"query_id", "stage_id", "stream_id"⟩
      = (DispatcherState.init,
         .error { code := 28,
                  message := "Stream query_id/stage_id/stream_id is not found" }) :=
  get_stream_not_found DispatcherState.init ⟨"query_id", "stage_id", "stream_id"⟩
    (by decide)

/-- C4: for every stream key, at most one get_stream ever succeeds along a
trace: a successful get removes the entry and returns the consumer end, and
once a key has been claimed, any later get_stream for it fails with
NotFoundError. -/
theorem get_stream_claim_at_most_once (reqs more : List Request)
    (k : StreamKey) :
    (runTrace reqs).claimed.count k ≤ 1
    ∧ (k ∈ (runTrace reqs).state.registry →
        get_stream (runTrace reqs).state k
          = ({ (runTrace reqs).state with
                registry := (runTrace reqs).state.registry.erase k }, .ok k))
    ∧ (k ∈ (runTrace reqs).claimed →
        (get_stream (runTrace (reqs ++ more)).state k).2
          = .error (notFoundStreamError k.render)) := by
  refine ⟨?_, ?_, ?_⟩
  · exact List.nodup_iff_count_le_one.mp (runTrace_inv reqs).claimed_nodup k
  · intro hk
    simp [get_stream, hk]
  · intro hk
    have hk' : k ∈ (runTrace (reqs ++ more)).claimed := by
      rw [runTrace, List.foldl_append]
      exact claimed_mono more (runTrace reqs) k hk
    have hreg : k ∉ (runTrace (reqs ++ more)).state.registry := fun hmem =>
      (((runTrace_inv (reqs ++ more)).registry_iff k).mp hmem).2 hk'
    simp [get_stream, hreg]

theorem get_stream_claim_at_most_once_witness :
    (runTrace [.prepareQueryStage ⟨"q", "s", ["a", "b"]⟩,
               .getStream ⟨"q", "s", "a"⟩]).claimed.count ⟨"q", "s", "a"⟩ ≤ 1
    ∧ (get_stream (runTrace ([.prepareQueryStage ⟨"q", "s", ["a", "b"]⟩,
               .getStream ⟨"q", "s", "a"⟩] ++ [])).state ⟨"q", "s", "a"⟩).2
        = .error (notFoundStreamError (StreamKey.render ⟨"q", "s", "a"⟩)) :=
  ⟨(get_stream_claim_at_most_once [.prepareQueryStage ⟨"q", "s", ["a", "b"]⟩,
      .getStream ⟨"q", "s", "a"⟩] [] ⟨"q", "s", "a"⟩).1,
   (get_stream_claim_at_most_once [.prepareQueryStage ⟨"q", "s", ["a", "b"]⟩,
      .getStream ⟨"q", "s", "a"⟩] [] ⟨"q", "s", "a"⟩).2.2 (by decide)⟩

/-- C6: on any reachable dispatcher state, prepare_query_stage fails with a
ValidationError — leaving the state unchanged — exactly when the stage key
is already registered or the destination list is empty; on success it
appends exactly N fresh registry entries, one per destination keyed by the
corresponding stream key. (Registration is modelled independently of stage
execution, which runs separately as `run_stage`.) -/
theorem prepare_query_stage_contract (reqs : List Request)
    (info : PrepareStageInfo) (hnd : info.destinations.Nodup) :
    ((prepare_query_stage (runTrace reqs).state info).2.isOk = false
       ↔ ((info.query_id, info.stage_id) ∈ (runTrace reqs).state.stages
            ∨ info.destinations = []))
    ∧ ((prepare_query_stage (runTrace reqs).state info).2.isOk = false →
        (prepare_query_stage (runTrace reqs).state info).1
          = (runTrace reqs).state)
    ∧ ((prepare_query_stage (runTrace reqs).state info).2.isOk = true →
        (prepare_query_stage (runTrace reqs).state info).1.registry
            = (runTrace reqs).state.registry ++ stageStreamKeys info
          ∧ (∀ k ∈ stageStreamKeys info, k ∉ (runTrace reqs).state.registry)
          ∧ (prepare_query_stage (runTrace reqs).state info).1.registry.length
              = (runTrace reqs).state.registry.length
                  + info.destinations.length) := by
  by_cases h1 : (info.query_id, info.stage_id) ∈ (runTrace reqs).state.stages
  · refine ⟨by simp [prepare_query_stage, h1, Except.isOk, Except.toBool], ?_, ?_⟩
    · intro _
      simp [prepare_query_stage, h1]
    · intro hok
      rw [show (prepare_query_stage (runTrace reqs).state info).2
            = .error (.duplicateStage info.query_id info.stage_id) by
          simp [prepare_query_stage, h1]] at hok
      simp [Except.isOk, Except.toBool] at hok
  · by_cases h2 : info.destinations = []
    · refine ⟨by simp [prepare_query_stage, h1, h2, Except.isOk, Except.toBool], ?_, ?_⟩
      · intro _
        simp [prepare_query_stage, h1, h2]
      · intro hok
        rw [show (prepare_query_stage (runTrace reqs).state info).2
              = .error .emptyDestinations by simp [prepare_query_stage, h1, h2]] at hok
        simp [Except.isOk, Except.toBool] at hok
    · have hfresh : ∀ k ∈ stageStreamKeys info,
          k ∉ (runTrace reqs).state.registry := by
        intro k hk hmem
        rcases mem_stageStreamKeys.mp hk with ⟨hq, hs, _⟩
        have hd := (((runTrace_inv reqs).registry_iff k).mp hmem).1
        exact h1 (hq ▸ hs ▸ (runTrace_inv reqs).declared_stage k hd)
      have hreg : (prepare_query_stage (runTrace reqs).state info).1.registry
          = (runTrace reqs).state.registry ++ stageStreamKeys info := by
        simp only [prepare_query_stage, if_neg h1, if_neg h2]
        exact foldl_insertKey_of_fresh _ _ (nodup_stageStreamKeys hnd) hfresh
      refine ⟨by simp [prepare_query_stage, h1, h2, Except.isOk, Except.toBool], ?_, ?_⟩
      · intro hko
        rw [show (prepare_query_stage (runTrace reqs).state info).2 = .ok () by
            simp [prepare_query_stage, h1, h2]] at hko
        simp [Except.isOk, Except.toBool] at hko
      · intro _
        refine ⟨hreg, hfresh, ?_⟩
        rw [hreg]
        simp [stageStreamKeys]

theorem prepare_query_stage_contract_witness :
    (prepare_query_stage (runTrace []).state ⟨"q", "s", []⟩).1
        = (runTrace []).state
    ∧ ((prepare_query_stage (runTrace []).state ⟨"q", "s", ["a", "b"]⟩).1.registry
          = (runTrace []).state.registry ++ stageStreamKeys ⟨"q", "s", ["a", "b"]⟩
        ∧ (∀ k ∈ stageStreamKeys ⟨"q", "s", ["a", "b"]⟩,
            k ∉ (runTrace []).state.registry)
        ∧ (prepare_query_stage (runTrace []).state ⟨"q", "s", ["a", "b"]⟩).1.registry.length
            = (runTrace []).state.registry.length
                + (["a", "b"] : List String).length) :=
  ⟨(prepare_query_stage_contract [] ⟨"q", "s", []⟩ (by decide)).2.1 (by decide),
   (prepare_query_stage_contract [] ⟨"q", "s", ["a", "b"]⟩ (by decide)).2.2 (by decide)⟩

/-- Terminal state of a stream channel: still open, closed in success state,
or closed in an error state carrying the failure cause. -/
inductive Terminal where
  | stillOpen
  | closedOk
  | closedErr (cause : String)
deriving DecidableEq, Repr

/-- A destination channel as seen end to end: the ordered sub-batches the
executor pushed into it plus its closure state. -/
structure Channel (α : Type) where
  sent : List (List α)
  terminal : Terminal
deriving DecidableEq, Repr

/-- The pristine channel created at stage registration time. -/
def Channel.new {α : Type} : Channel α := ⟨[], .stillOpen⟩

/-- Modelled from the spec: per-batch scatter grouping — destination `i`
receives exactly the rows whose routing value is `i` modulo N, keeping
their relative order from the source batch. -/
def scatterBatch {α : Type} (n : Nat) (route : α → Nat) (batch : List α) :
    List (List α) :=
  (List.range n).map fun i => batch.filter fun r => route r % n == i

/-- Push one scatter group per destination; an empty group emits nothing. -/
def pushBatches {α : Type} (chans : List (Channel α)) (subs : List (List α)) :
    List (Channel α) :=
  List.zipWith
    (fun c sub => if sub.isEmpty then c else { c with sent := c.sent ++ [sub] })
    chans subs

/-- Close every channel of the stage with the given terminal state. -/
def closeAll {α : Type} (t : Terminal) (chans : List (Channel α)) :
    List (Channel α) :=
  chans.map fun c => { c with terminal := t }

/-- Modelled from the spec: the Stage Executor loop. With one destination
every produced batch is forwarded verbatim and in order; with N > 1 each
batch is scattered by `routing_value mod N`, emitting only non-empty
groups. Exhaustion of the source closes every channel in success state; a
plan or expression-evaluation error closes every channel — claimed or not —
in an error state carrying the cause. -/
def execLoop {α : Type} (n : Nat) (route : α → Nat) :
    List (Except String (List α)) → List (Channel α) → List (Channel α)
  | [], chans => closeAll .closedOk chans
  | .error e :: _, chans => closeAll (.closedErr e) chans
  | .ok batch :: rest, chans =>
      if n = 1 then
        execLoop n route rest
          (chans.map fun c => { c with sent := c.sent ++ [batch] })
      else
        execLoop n route rest (pushBatches chans (scatterBatch n route batch))

/-- Run a freshly prepared stage with N destination channels over the plan
fragment's sequence of batch results. -/
def run_stage {α : Type} (n : Nat) (route : α → Nat)
    (input : List (Except String (List α))) : List (Channel α) :=
  execLoop n route input (List.replicate n Channel.new)

/-- Rows observed, in order, by the consumer of destination `i`. -/
def destRows {α : Type} (chans : List (Channel α)) (i : Nat) : List α :=
  ((chans.getD i Channel.new).sent).flatten

/-- Closure state observed by the consumer of destination `i`. -/
def destTerminal {α : Type} (chans : List (Channel α)) (i : Nat) : Terminal :=
  (chans.getD i Channel.new).terminal

theorem length_scatterBatch {α : Type} (n : Nat) (route : α → Nat)
    (batch : List α) : (scatterBatch n route batch).length = n := by
  simp [scatterBatch]

theorem length_pushBatches {α : Type} (chans : List (Channel α))
    (subs : List (List α)) (h : subs.length = chans.length) :
    (pushBatches chans subs).length = chans.length := by
  simp [pushBatches, h]

theorem destRows_closeAll {α : Type} (t : Terminal) (chans : List (Channel α))
    (i : Nat) : destRows (closeAll t chans) i = destRows chans i := by
  induction chans generalizing i with
  | nil => rfl
  | cons c cs ih =>
      cases i with
      | zero => rfl
      | succ j => exact ih j

theorem destTerminal_closeAll {α : Type} (t : Terminal)
    (chans : List (Channel α)) (i : Nat) (h : i < chans.length) :
    destTerminal (closeAll t chans) i = t := by
  induction chans generalizing i with
  | nil => exact absurd h (Nat.not_lt_zero i)
  | cons c cs ih =>
      cases i with
      | zero => rfl
      | succ j => exact ih j (Nat.lt_of_succ_lt_succ h)

theorem destRows_pushBatches {α : Type} (chans : List (Channel α))
    (subs : List (List α)) (h : subs.length = chans.length) (i : Nat) :
    destRows (pushBatches chans subs) i = destRows chans i ++ subs.getD i [] := by
  induction chans generalizing subs i with
  | nil =>
      have : subs = [] := List.length_eq_zero.mp h
      subst this
      simp [pushBatches, destRows, Channel.new]
  | cons c cs ih =>
      cases subs with
      | nil => cases h
      | cons s ss =>
          cases i with
          | zero =>
              by_cases hs : s.isEmpty
              · have : s = [] := List.isEmpty_iff.mp hs
                subst this
                simp [pushBatches, destRows, hs]
              · simp [pushBatches, destRows, hs]
          | succ j =>
              have h' : ss.length = cs.length := by simpa using h
              exact ih ss h' j

theorem getD_scatterBatch {α : Type} (n : Nat) (route : α → Nat)
    (batch : List α) (i : Nat) (hi : i < n) :
    (scatterBatch n route batch).getD i []
      = batch.filter fun r => route r % n == i := by
  simp [scatterBatch, List.getD_eq_getElem?_getD, List.getElem?_range hi]

theorem destRows_replicate_new {α : Type} (n i : Nat) :
    destRows (List.replicate n (Channel.new (α := α))) i = [] := by
  induction n generalizing i with
  | zero => rfl
  | succ m ih =>
      cases i with
      | zero => rfl
      | succ j => exact ih j

theorem destRows_execLoop_scatter {α : Type} (n : Nat) (route : α → Nat)
    (batches : List (List α)) (chans : List (Channel α))
    (hlen : chans.length = n) (h1 : n ≠ 1) (i : Nat) (hi : i < n) :
    destRows (execLoop n route (batches.map .ok) chans) i
      = destRows chans i ++ (batches.flatten.filter fun r => route r % n == i) := by
  induction batches generalizing chans with
  | nil => simp [execLoop, destRows_closeAll]
  | cons b rest ih =>
      have hsub : (scatterBatch n route b).length = chans.length := by
        rw [length_scatterBatch, hlen]
      have hlen' : (pushBatches chans (scatterBatch n route b)).length = n := by
        rw [length_pushBatches chans _ hsub, hlen]
      simp only [List.map_cons, execLoop, if_neg h1]
      rw [ih _ hlen', destRows_pushBatches chans _ hsub i,
          getD_scatterBatch n route b i hi, List.flatten_cons,
          List.filter_append, List.append_assoc]

theorem destRows_execLoop_single {α : Type} (route : α → Nat)
    (batches : List (List α)) (chans : List (Channel α))
    (hlen : chans.length = 1) :
    destRows (execLoop 1 route (batches.map .ok) chans) 0
      = destRows chans 0 ++ batches.flatten := by
  induction batches generalizing chans with
  | nil => simp [execLoop, destRows_closeAll]
  | cons b rest ih =>
      cases chans with
      | nil => cases hlen
      | cons c cs =>
          have hcs : cs = [] := by simpa using hlen
          subst hcs
          simp only [List.map_cons, execLoop, eq_self_iff_true, if_true,
                     List.map_nil]
          rw [ih _ (by simp)]
          simp [destRows, List.flatten_append, List.append_assoc]

theorem destTerminal_execLoop_err {α : Type} (n : Nat) (route : α → Nat)
    (pre : List (List α)) (e : String) (rest : List (Except String (List α)))
    (chans : List (Channel α)) (hlen : chans.length = n) (i : Nat)
    (hi : i < n) :
    destTerminal (execLoop n route (pre.map .ok ++ .error e :: rest) chans) i
      = .closedErr e := by
  induction pre generalizing chans with
  | nil =>
      simp only [List.map_nil, List.nil_append, execLoop]
      exact destTerminal_closeAll _ _ i (by rw [hlen]; exact hi)
  | cons b pre ih =>
      simp only [List.map_cons, List.cons_append, execLoop]
      by_cases h1 : n = 1
      · rw [if_pos h1]
        exact ih _ (by simpa using hlen)
      · rw [if_neg h1]
        refine ih _ ?_
        rw [length_pushBatches chans _ (by rw [length_scatterBatch, hlen])]
        exact hlen

theorem sum_map_range_eq_single (f : Nat → Nat) (n j : Nat) (hj : j < n)
    (h0 : ∀ i, i < n → i ≠ j → f i = 0) :
    ((List.range n).map f).sum = f j := by
  induction n with
  | zero => exact absurd hj (Nat.not_lt_zero j)
  | succ m ih =>
      rw [List.range_succ, List.map_append, List.sum_append]
      by_cases hjm : j = m
      · subst hjm
        have hz : ((List.range j).map f).sum = 0 := by
          apply List.sum_eq_zero
          intro x hx
          rcases List.mem_map.mp hx with ⟨i, hi, rfl⟩
          have him := List.mem_range.mp hi
          exact h0 i (Nat.lt_succ_of_lt him) (Nat.ne_of_lt him)
        simp [hz]
      · have hj' : j < m := Nat.lt_of_le_of_ne (Nat.le_of_lt_succ hj) hjm
        have hm : f m = 0 :=
          h0 m (Nat.lt_succ_self m) fun hmj => hjm hmj.symm
        rw [ih hj' fun i hi hij => h0 i (Nat.lt_succ_of_lt hi) hij]
        simp [hm]

/-- C1: for a prepared stage with N > 1 ordered destinations and an
integer-valued routing function, destination `i` receives exactly the
source rows whose routing value is `i` modulo N, in source order (a stable
partition), and summing each row's occurrences across all destinations
recovers its count in the source — no row is duplicated or lost. -/
theorem scatter_stable_partition {α : Type} [DecidableEq α] (n : Nat)
    (route : α → Nat) (batches : List (List α)) (hn : 1 < n) :
    (∀ i, i < n →
        destRows (run_stage n route (batches.map .ok)) i
          = batches.flatten.filter fun r => route r % n == i)
    ∧ ∀ r : α,
        ((List.range n).map fun i =>
            (destRows (run_stage n route (batches.map .ok)) i).count r).sum
          = batches.flatten.count r := by
  have h1 : n ≠ 1 := by omega
  have hmain : ∀ i, i < n →
      destRows (run_stage n route (batches.map .ok)) i
        = batches.flatten.filter fun r => route r % n == i := by
    intro i hi
    rw [run_stage, destRows_execLoop_scatter n route batches _
          (List.length_replicate n _) h1 i hi, destRows_replicate_new]
    simp
  refine ⟨hmain, fun r => ?_⟩
  have hj : route r % n < n := Nat.mod_lt _ (by omega)
  rw [sum_map_range_eq_single _ n (route r % n) hj ?_]
  · rw [hmain _ hj]
    exact List.count_filter (by simp)
  · intro i hi hij
    rw [hmain i hi, List.count_eq_zero]
    intro hmem
    have h2 : route r % n = i := by simpa using (List.mem_filter.mp hmem).2
    exact hij h2.symm

theorem scatter_stable_partition_witness :
    ((∀ i, i < 2 →
        destRows (run_stage 2 (fun r => r)
            (([[0, 1, 2, 3, 4]] : List (List Nat)).map .ok)) i
          = ([[0, 1, 2, 3, 4]] : List (List Nat)).flatten.filter
              fun r => r % 2 == i)
     ∧ ∀ r : Nat,
        ((List.range 2).map fun i =>
            (destRows (run_stage 2 (fun r => r)
                (([[0, 1, 2, 3, 4]] : List (List Nat)).map .ok)) i).count r).sum
          = ([[0, 1, 2, 3, 4]] : List (List Nat)).flatten.count r)
    ∧ destRows (run_stage 2 (fun r => r)
        (([[0, 1, 2, 3, 4]] : List (List Nat)).map .ok)) 0 = [0, 2, 4]
    ∧ destRows (run_stage 2 (fun r => r)
        (([[0, 1, 2, 3, 4]] : List (List Nat)).map .ok)) 1 = [1, 3] :=
  ⟨scatter_stable_partition 2 (fun r => r) [[0, 1, 2, 3, 4]] (by decide),
   by decide, by decide⟩

/-- C2: a stage prepared with exactly one destination is an identity
passthrough: the single stream carries the source plan's rows in content
and order, whatever the scatter routing function is. -/
theorem single_destination_passthrough {α : Type} (route : α → Nat)
    (batches : List (List α)) :
    destRows (run_stage 1 route (batches.map .ok)) 0 = batches.flatten := by
  rw [run_stage, destRows_execLoop_single route batches _ (by simp),
      destRows_replicate_new]
  simp

/-- C5: if the plan fragment's batch stream fails after any prefix of
successful batches, every destination channel of the stage — claimed or
not — ends closed in an error state carrying that cause, so every current
or future consumer of any destination observes the same terminal error
rather than an open channel. -/
theorem failure_closes_every_channel {α : Type} (n : Nat) (route : α → Nat)
    (pre : List (List α)) (e : String)
    (rest : List (Except String (List α))) (i : Nat) (hi : i < n) :
    destTerminal (run_stage n route (pre.map .ok ++ .error e :: rest)) i
      = .closedErr e :=
  destTerminal_execLoop_err n route pre e rest _ (List.length_replicate n _) i hi

theorem failure_closes_every_channel_witness :
    destTerminal (run_stage 2 (fun r => r)
        (([[0]] : List (List Nat)).map .ok ++ .error "boom" :: [])) 1
      = .closedErr "boom" :=
  failure_closes_every_channel 2 (fun r => r) [[0]] "boom" [] 1 (by decide)
